import Mathlib

/-!
Verification of the Reliable-UDP-Wrapper transport engine.

This file gives a shallow embedding of the transport engine of the
repository (the part-2 CUBIC sender `src/part2/p2_server.py`, the part-2
receiver `src/part2/p2_client.py`, and, where a claim refers to them, the
Reno variants `src/p2_server.py` / `src/p2_client.py`), and proves or
refutes the specification claims about it.

Conventions of the embedding:
* Python byte strings become `List Nat` (one `Nat` per byte).
* Sequence numbers, flags and lengths are `Nat`.
* Python floats (congestion window, RTT state, wall-clock times) become
  `ℚ`; the wall clock is passed explicitly as a `now : ℚ` argument.
  The float cube root used by the CUBIC `K` computation is passed in as
  an oracle parameter `cbrt : ℚ → ℚ`, since no claim depends on its value.
* The receiver's `heapq` min-heap together with its companion
  `receive_buffer_seqs` set is represented as a list kept sorted by
  strictly increasing sequence number: peeking index 0 is peeking the heap
  minimum, and pushes insert at the sorted position.
-/

namespace Part2Client

/-- Flag bits of the wire format (`SYN=0x1, ACK=0x2, EOF=0x4`). -/
def SYN_FLAG : Nat := 0x1

def ACK_FLAG : Nat := 0x2

def EOF_FLAG : Nat := 0x4

/-- Payload bytes per segment: `PAYLOAD_SIZE = MSS_BYTES - HEADER_SIZE = 1180`. -/
def PAYLOAD_SIZE : Nat := 1180

/-- Cap of the out-of-order buffer, `MAX_RECV_WINDOW_PACKETS`. -/
def MAX_RECV_WINDOW_PACKETS : Nat := 2000

/-- A decoded datagram as seen by the receiver: the five header fields of
`"!IIHII2x"` plus the payload bytes. -/
structure Packet where
  seq : Nat
  ack : Nat
  flags : Nat
  sackStart : Nat
  sackEnd : Nat
  data : List Nat
  deriving Repr, DecidableEq

/-- One entry of the receiver's out-of-order buffer: the tuple
`(seq_num, data, flags)` pushed onto the `receive_buffer` heap. -/
structure Entry where
  seq : Nat
  data : List Nat
  flags : Nat
  deriving Repr, DecidableEq

/-- An ACK datagram emitted by `prepare_ack(ack_num, flags, sack_start,
sack_end)` (the `seq` field of an ACK is always 0). -/
structure AckMsg where
  ack : Nat
  flags : Nat
  sackStart : Nat
  sackEnd : Nat
  deriving Repr, DecidableEq

/-- Result of `process_packet`: `"DONE"` or `"CONTINUE"`. -/
inductive Status where
  | DONE
  | CONT
  deriving Repr, DecidableEq

/-- Receiver state: `next_expected_seq_num`, the out-of-order buffer
(sorted model of the heap + seq set), and the bytes written to the output
sink so far, in write order. -/
structure CState where
  nextExpected : Nat
  buffer : List Entry
  sink : List Nat
  deriving Repr, DecidableEq

/-- Initial receiver state. -/
def initState : CState := ⟨0, [], []⟩

/-- Membership test on the buffer by sequence number; models
`seq_num in self.receive_buffer_seqs`. -/
def bufContains (buf : List Entry) (s : Nat) : Bool :=
  buf.any (fun e => e.seq == s)

/-- Models `heapq.heappush`: insert an entry at its sorted position. -/
def bufInsert (e : Entry) : List Entry → List Entry
  | [] => [e]
  | x :: xs => if e.seq < x.seq then e :: x :: xs else x :: bufInsert e xs

/-- Models `find_first_sack_block`: peek the heap minimum and report
`[seq, seq + len(data))`, or `(0, 0)` on an empty buffer. -/
def find_first_sack_block (buf : List Entry) : Nat × Nat :=
  match buf with
  | [] => (0, 0)
  | e :: _ => (e.seq, e.seq + e.data.length)

/-- Result of draining the contiguous prefix of the buffer. -/
structure DrainRes where
  buffer : List Entry
  ne : Nat
  sink : List Nat
  eof : Bool
  deriving Repr, DecidableEq

/-- The `while self.receive_buffer and self.receive_buffer[0][0] ==
self.next_expected_seq_num` loop of `process_packet`: pop contiguous
entries, writing data entries to the sink and stopping with `eof = true`
(state untouched further) when a buffered EOF entry is popped. -/
def drain : List Entry → Nat → List Nat → DrainRes
  | [], ne, sink => ⟨[], ne, sink, false⟩
  | e :: rest, ne, sink =>
    if e.seq = ne then
      if e.flags &&& EOF_FLAG ≠ 0 then ⟨rest, ne, sink, true⟩
      else drain rest (ne + e.data.length) (sink ++ e.data)
    else ⟨e :: rest, ne, sink, false⟩

/-- Result of one `process_packet` call: the successor state, the ACK
datagrams sent during the call (in order), and the returned status. -/
structure StepResult where
  state : CState
  acks : List AckMsg
  status : Status
  deriving Repr, DecidableEq

/-- Models `Client.process_packet` of `src/part2/p2_client.py`, branch for branch:
EOF handling first, then in-order data (with contiguous drain), then
out-of-order buffering, then stale duplicate. -/
def processPacket (s : CState) (p : Packet) : StepResult :=
  if p.flags &&& EOF_FLAG ≠ 0 then
    if p.seq = s.nextExpected then
      ⟨s, [⟨p.seq, ACK_FLAG ||| EOF_FLAG, 0, 0⟩], .DONE⟩
    else
      let buf' := if p.seq > s.nextExpected ∧ ¬ bufContains s.buffer p.seq = true
                  then bufInsert ⟨p.seq, p.data, p.flags⟩ s.buffer
                  else s.buffer
      ⟨⟨s.nextExpected, buf', s.sink⟩,
        [⟨s.nextExpected, ACK_FLAG, (find_first_sack_block buf').1,
          (find_first_sack_block buf').2⟩], .CONT⟩
  else if p.seq = s.nextExpected then
    let d := drain s.buffer (s.nextExpected + p.data.length) (s.sink ++ p.data)
    if d.eof then
      ⟨⟨d.ne, d.buffer, d.sink⟩, [⟨d.ne + 1, ACK_FLAG ||| EOF_FLAG, 0, 0⟩], .DONE⟩
    else
      ⟨⟨d.ne, d.buffer, d.sink⟩,
        [⟨d.ne, ACK_FLAG, (find_first_sack_block d.buffer).1,
          (find_first_sack_block d.buffer).2⟩], .CONT⟩
  else if p.seq > s.nextExpected then
    let buf' := if ¬ bufContains s.buffer p.seq = true ∧
                   s.buffer.length < MAX_RECV_WINDOW_PACKETS
                then bufInsert ⟨p.seq, p.data, p.flags⟩ s.buffer
                else s.buffer
    ⟨⟨s.nextExpected, buf', s.sink⟩,
      [⟨s.nextExpected, ACK_FLAG, p.seq, p.seq + p.data.length⟩], .CONT⟩
  else
    ⟨s, [⟨s.nextExpected, ACK_FLAG, (find_first_sack_block s.buffer).1,
          (find_first_sack_block s.buffer).2⟩], .CONT⟩

/-- The receive loop: process packets in arrival order, stopping at the
first `"DONE"`; the Boolean records whether the session completed. -/
def runClient : CState → List Packet → CState × Bool
  | s, [] => (s, false)
  | s, p :: rest =>
    let r := processPacket s p
    match r.status with
    | .DONE => (r.state, true)
    | .CONT => runClient r.state rest

/-- Python slicing `bytes[a:b]` on a byte string. -/
def slice (l : List Nat) (a b : Nat) : List Nat := (l.drop a).take (b - a)

/-- Length of the sender's chunk starting at offset `seq` of a file of
`n` bytes: `min(start + PAYLOAD_SIZE, file_size) - start`, from
`Server.get_next_content` of `src/part2/p2_server.py`. -/
def chunkLen (n seq : Nat) : Nat := min PAYLOAD_SIZE (n - seq)

/-- A datagram the part-2 sender can put on the wire for a payload `file`
(fresh send or retransmission — both send identical bytes): either a data
segment, whose `seq` is a chunk boundary (`get_next_content` advances
`next_seq_num` by exactly `PAYLOAD_SIZE` until the final, possibly
shorter, chunk) carrying exactly the file bytes of that chunk with
`flags = 0`; or the EOF segment with `seq = file_size` and
`flags = EOF_FLAG`. -/
def HonestData (file : List Nat) (seq : Nat) (data : List Nat) (flags : Nat) : Prop :=
  (flags = 0 ∧ seq % PAYLOAD_SIZE = 0 ∧ seq < file.length ∧
    data = slice file seq (seq + chunkLen file.length seq))
  ∨ (flags = EOF_FLAG ∧ seq = file.length)

instance (file : List Nat) (seq : Nat) (data : List Nat) (flags : Nat) :
    Decidable (HonestData file seq data flags) := by
  unfold HonestData; infer_instance

/-- Invariant of the receiver state, relative to the payload `file`, for
runs whose datagrams are all honest sender segments. -/
structure Inv (file : List Nat) (s : CState) : Prop where
  sorted : s.buffer.Pairwise (fun a b => a.seq < b.seq)
  honest : ∀ e ∈ s.buffer, HonestData file e.seq e.data e.flags
  above : ∀ e ∈ s.buffer, s.nextExpected < e.seq
  aligned : s.nextExpected % PAYLOAD_SIZE = 0 ∨ s.nextExpected = file.length
  bound : s.nextExpected ≤ file.length
  sinkEq : s.sink = file.take s.nextExpected

/-- Big-endian multi-byte integer, as `struct.unpack("!...")` reads it. -/
def beNat (l : List Nat) : Nat := l.foldl (fun a b => 256 * a + b) 0

/-- Models `Client.unpack_header`: `struct.unpack(HEADER_FORMAT, packet[:20])`
raises `struct.error` exactly when the datagram is shorter than the
20-byte header (the `None` return); otherwise it never inspects the SACK
fields' consistency.  Bytes 18–19 are the `2x` padding and are ignored. -/
def unpackHeader (pkt : List Nat) : Option Packet :=
  if pkt.length < 20 then none
  else some
    { seq := beNat (pkt.take 4)
      ack := beNat ((pkt.drop 4).take 4)
      flags := beNat ((pkt.drop 8).take 2)
      sackStart := beNat ((pkt.drop 10).take 4)
      sackEnd := beNat ((pkt.drop 14).take 4)
      data := pkt.drop 20 }

/-- Runs the part-2 client `process_packet` on a raw datagram.  In
`src/part2/p2_client.py` both return paths of `unpack_header` produce a
6-tuple, so the 6-name unpacking always succeeds and the
`if seq_num is None` guard correctly catches a failed decode: the
datagram is dropped with `"CONTINUE"`, the state untouched and no ACK
sent.  (The Reno client `src/p2_client.py` behaves differently on a
failed decode; see the `RenoClient` namespace.) -/
def processRaw (s : CState) (pkt : List Nat) : StepResult :=
  match unpackHeader pkt with
  | none => ⟨s, [], .CONT⟩
  | some p => processPacket s p

end Part2Client

namespace Part2Server

/-!
Embedding of the sender-side state of `src/part2/p2_server.py`: the
congestion controller (Slow Start / Congestion Avoidance / Fast Recovery
with CUBIC parameters), the RTO estimator, and the RTT-sampling policy of
`process_incoming_ack`.  All floats are `ℚ`; `float('inf')` for the
minimum RTT is `Option.none`; the cube root `** (1.0/3.0)` is an oracle
argument `cbrt`.
-/

def MSS_BYTES : ℚ := 1200

def PAYLOAD_SIZE : ℚ := 1180

def ALPHA : ℚ := 1/8

def BETA : ℚ := 1/4

/-- The constant `K = 4.0` of the RTO formula (named `K` in the source's
RTO section). -/
def K_RTO : ℚ := 4

def INITIAL_RTO : ℚ := 1

def MIN_RTO : ℚ := 1/5

/-- The CUBIC constant `C = 0.4`. -/
def C_CUBIC : ℚ := 2/5

/-- The CUBIC multiplicative decrease factor `beta_cubic = 0.7`. -/
def BETA_CUBIC : ℚ := 7/10

/-- The three controller phases `STATE_SLOW_START / STATE_CONGESTION_AVOIDANCE / STATE_FAST_RECOVERY`. -/
inductive CCState where
  | slowStart
  | congestionAvoidance
  | fastRecovery
  deriving Repr, DecidableEq

/-- The sender's congestion-control and RTT state variables. -/
structure Srv where
  state : CCState
  cwnd : ℚ
  ssthresh : ℚ
  dupAckCount : Nat
  rto : ℚ
  srtt : ℚ
  rttvar : ℚ
  rttMin : Option ℚ
  ackCredits : ℚ
  wMax : ℚ
  wMaxLast : ℚ
  tLastCong : ℚ
  kCubic : ℚ
  deriving Repr, DecidableEq

/-- The sender state as `Server.__init__` builds it (`cwnd = MSS_BYTES`,
`ssthresh = 2 GB`, `rto = INITIAL_RTO = 1 s`). -/
def initSrv : Srv :=
  { state := .slowStart
    cwnd := MSS_BYTES
    ssthresh := 2 * 1024 * 1024 * 1024
    dupAckCount := 0
    rto := INITIAL_RTO
    srtt := 0
    rttvar := 0
    rttMin := none
    ackCredits := 0
    wMax := 0
    wMaxLast := 0
    tLastCong := 0
    kCubic := 0 }

/-- Models `Server.update_rto`: track `rtt_min`, run the Jacobson estimator with
first-sample initialization, then `rto := max(MIN_RTO, srtt + K·rttvar)`
(there is no upper clamp in the source). -/
def update_rto (rtt_sample : ℚ) (s : Srv) : Srv :=
  let rttMin' := match s.rttMin with
    | none => some rtt_sample
    | some m => some (min m rtt_sample)
  let srtt' := if s.srtt = 0 then rtt_sample
               else (1 - ALPHA) * s.srtt + ALPHA * rtt_sample
  let rttvar' := if s.srtt = 0 then rtt_sample / 2
                 else (1 - BETA) * s.rttvar + BETA * |s.srtt - rtt_sample|
  { s with rttMin := rttMin', srtt := srtt', rttvar := rttvar',
           rto := max MIN_RTO (srtt' + K_RTO * rttvar') }

/-- Models `Server.enter_cubic_congestion_avoidance`: record the congestion
epoch, apply the fast-convergence rule to `w_max`, set
`ssthresh := cwnd · beta_cubic` (no floor!), and recompute `K`. -/
def enter_cubic_congestion_avoidance (cbrt : ℚ → ℚ) (now : ℚ) (s : Srv) : Srv :=
  let newWMax := s.cwnd
  let wMax' := if newWMax < s.wMax then newWMax * (1 + BETA_CUBIC) / 2 else newWMax
  let wMaxMss := max 1 (wMax' / PAYLOAD_SIZE)
  let kNum := wMaxMss * (1 - BETA_CUBIC) / C_CUBIC
  { s with tLastCong := now
           wMaxLast := s.wMax
           wMax := wMax'
           ssthresh := s.cwnd * BETA_CUBIC
           kCubic := if kNum > 0 then cbrt kNum else 0 }

/-- The RTO-event tail of `Server.handle_timeouts`, run after the oldest
timed-out packet is successfully resent: congestion-event bookkeeping,
then `state := SLOW_START`, `cwnd := MSS_BYTES` (one MSS), RTO doubling
capped at 60 s, and duplicate-ACK counter reset. -/
def on_timeout (cbrt : ℚ → ℚ) (now : ℚ) (s : Srv) : Srv :=
  let s1 := enter_cubic_congestion_avoidance cbrt now s
  { s1 with state := .slowStart
            cwnd := MSS_BYTES
            rto := min (s1.rto * 2) 60
            dupAckCount := 0 }

/-- The `cum_ack == base_seq_num` branch of `Server.process_incoming_ack`
(congestion part): count duplicates outside Fast Recovery; on the third
duplicate run the congestion event, set `cwnd := ssthresh`, and enter
Fast Recovery; inside Fast Recovery do nothing. -/
def on_dup_ack (cbrt : ℚ → ℚ) (now : ℚ) (s : Srv) : Srv :=
  if s.state = .fastRecovery then s
  else
    let s1 := { s with dupAckCount := s.dupAckCount + 1 }
    if s1.dupAckCount = 3 then
      let s2 := enter_cubic_congestion_avoidance cbrt now s1
      { s2 with cwnd := s2.ssthresh, state := .fastRecovery }
    else s1

/-- The value `rtt_min_sec` as computed at the top of the CUBIC growth branch:
`INITIAL_RTO`, overridden by `rtt_min` when finite, else by `srtt` when
positive. -/
def rtt_min_sec (s : Srv) : ℚ :=
  match s.rttMin with
  | some m => m
  | none => if s.srtt > 0 then s.srtt else INITIAL_RTO

/-- The CUBIC window target of the new-ACK branch: `w_target =
max(W_cubic(t_elapsed + rtt_min), W_tcp(t_elapsed))` — note the cubic
curve is evaluated at `t_elapsed + rtt_min_sec`, one `rtt_min` ahead. -/
def cubic_target (now : ℚ) (s : Srv) : ℚ :=
  let r := rtt_min_sec s
  let tElapsed := now - s.tLastCong
  let alphaCubic := 3 * BETA_CUBIC / (2 - BETA_CUBIC)
  let wTcp := s.ssthresh + alphaCubic * (tElapsed / r) * PAYLOAD_SIZE
  let tTarget := tElapsed + r
  let wCubic := C_CUBIC * (tTarget - s.kCubic) ^ 3 + s.wMax
  max wCubic wTcp

/-- The per-ACK CUBIC window update (the `t_last_congestion != 0` branch
of the Congestion Avoidance case): `cwnd += (target − cwnd) /
max(1, cwnd/PAYLOAD_SIZE)`.  The increment is not clamped at zero and
there is no `MAX_CWND` cap. -/
def cubic_ack_update (now : ℚ) (s : Srv) : ℚ :=
  let target := cubic_target now s
  let cwndPkts := max 1 (s.cwnd / PAYLOAD_SIZE)
  s.cwnd + (target - s.cwnd) / cwndPkts

/-- One record of the `sent_packets` buffer:
`seq_num ↦ (packet, send_time, retrans_count)` (payload reference elided). -/
structure SentRec where
  seq : Nat
  sendTime : ℚ
  retrans : Nat
  deriving Repr, DecidableEq

/-- Computes `max(newly_acked_packets)` of the new-ACK branch: the record of the
largest sequence number strictly below `cum_ack`. -/
def newestAcked (sent : List SentRec) (cumAck : Nat) : Option SentRec :=
  (sent.filter (fun r => r.seq < cumAck)).foldl
    (fun acc r =>
      match acc with
      | none => some r
      | some m => if m.seq < r.seq then some r else some m) none

/-- The RTT sample computed by the new-ACK branch of
`process_incoming_ack`: drawn from the newest acknowledged record, and
only if its retransmit count is 0. -/
def ack_rtt_sample (sent : List SentRec) (cumAck : Nat) (now : ℚ) : Option ℚ :=
  match newestAcked sent cumAck with
  | none => none
  | some r => if r.retrans = 0 then some (now - r.sendTime) else none

/-- A trivial stand-in for the float cube-root oracle, used to
instantiate counterexamples at concrete states (no refuted property
depends on the value of `K`). -/
def cbrt0 : ℚ → ℚ := fun _ => 0

end Part2Server

namespace RenoServer

/-- The RTT sample of the Reno variant `src/p2_server.py`
(`process_incoming_ack`, new-ACK branch): if the base sequence number is
still buffered, sample `now − send_time` from it — with no check of its
retransmit count. -/
def ack_rtt_sample (sent : List Part2Server.SentRec) (base : Nat) (now : ℚ) :
    Option ℚ :=
  match sent.find? (fun r => r.seq == base) with
  | some r => some (now - r.sendTime)
  | none => none

/-- Models `Server.update_cwnd` for case `"TLE"` of `src/p2_server.py`: classical
timeout collapse — `ssthresh := max(cwnd/2, 2·PAYLOAD_SIZE)`,
`cwnd := 1·PAYLOAD_SIZE`, state back to Slow Start. -/
def update_cwnd_TLE (cwnd : ℚ) : ℚ × ℚ :=
  (1 * (1180 : ℚ), max (cwnd / 2) (2 * (1180 : ℚ)))

end RenoServer

namespace RenoClient

/-!
Embedding of the malformed-datagram path of the Reno receiver
`src/p2_client.py`.  Its header format is `"!IIH10x"` (no SACK fields),
so a successful `unpack_header` returns a 3-tuple `(seq, ack, flags)`;
on `struct.error` (datagram shorter than 20 bytes) it returns the
literal 4-tuple `(None, None, None, None)` — which is a tuple, not
`None`.
-/

/-- Return value of the Reno client `unpack_header`: the 3-tuple of
header fields, or the 4-tuple of `None`s produced by the
`except struct.error` arm. -/
inductive HeaderResult where
  | fields (seq ack flags : Nat)
  | noneQuad
  deriving Repr, DecidableEq

/-- Models the Reno client `unpack_header`:
`struct.unpack("!IIH10x", packet[:20])` succeeds exactly on datagrams of
at least 20 bytes; otherwise the handler returns the `None` 4-tuple. -/
def unpack_header (pkt : List Nat) : HeaderResult :=
  if pkt.length < 20 then .noneQuad
  else .fields (Part2Client.beNat (pkt.take 4))
    (Part2Client.beNat ((pkt.drop 4).take 4))
    (Part2Client.beNat ((pkt.drop 8).take 2))

/-- Outcome of the decode prefix of the Reno client `process_packet`:
either the three names `seq_num, ack_num, flags` are bound (with
`data = packet[20:]`), or the statement raises `ValueError`, because the
guard `if header_data is None` never fires on the 4-tuple and the
3-name unpacking of a 4-tuple raises. -/
inductive DecodeOutcome where
  | ok (seq ack flags : Nat) (data : List Nat)
  | valueError
  deriving Repr, DecidableEq

/-- Models lines 102–109 of `src/p2_client.py`: `header_data =
unpack_header(packet)`; the `is None` guard (never taken, since both
return paths produce tuples); then `seq_num, ack_num, flags =
header_data`, which raises `ValueError` when `header_data` is the
`None` 4-tuple. -/
def process_packet_entry (pkt : List Nat) : DecodeOutcome :=
  match unpack_header pkt with
  | .noneQuad => .valueError
  | .fields s a f => .ok s a f (pkt.drop 20)

/-- Models the receive loop reaction of `src/p2_client.py` (`run`,
lines 199–210) to the datagram alone: `process_packet` runs inside
`try`; an uncaught exception reaches the generic `except Exception`
handler, which sets `running = False`.  The result is the value of
`running` after the iteration insofar as it is determined by the
exception path (`true` means the loop proceeds to the `"DONE"` check). -/
def loop_survives (pkt : List Nat) : Bool :=
  match process_packet_entry pkt with
  | .valueError => false
  | .ok _ _ _ _ => true

end RenoClient

namespace Part2Client

lemma honestData_data_length {file : List Nat} {seq : Nat} {data : List Nat}
    (h0 : data = slice file seq (seq + chunkLen file.length seq)) :
    data.length = chunkLen file.length seq := by
  subst h0
  simp only [slice, chunkLen, List.length_take, List.length_drop]
  omega

lemma take_append_slice {file : List Nat} {a b : Nat} (hab : a ≤ b) :
    file.take a ++ slice file a b = file.take b := by
  conv_rhs => rw [show b = a + (b - a) by omega]
  rw [List.take_add, slice]

/-- Two distinct honest sequence numbers below or at the end of the file
are at least one whole chunk apart: the successor of chunk `a` cannot
overshoot any later honest offset `b`. -/
lemma seq_gap {n a b : Nat} (ha : a % PAYLOAD_SIZE = 0) (han : a < n)
    (hb : b % PAYLOAD_SIZE = 0 ∨ b = n) (hab : a < b) :
    a + chunkLen n a ≤ b := by
  rcases hb with hb | hb <;> simp only [chunkLen, PAYLOAD_SIZE] at * <;> omega

/-- Advancing past an in-order honest chunk keeps `next_expected` at a
chunk boundary (or at end of file) and below the file length. -/
lemma advance_props {n ne : Nat} (hmod : ne % PAYLOAD_SIZE = 0) (hlt : ne < n) :
    ((ne + chunkLen n ne) % PAYLOAD_SIZE = 0 ∨ ne + chunkLen n ne = n) ∧
      ne + chunkLen n ne ≤ n := by
  simp only [chunkLen, PAYLOAD_SIZE] at *
  omega

lemma mem_bufInsert {x e : Entry} {l : List Entry} :
    x ∈ bufInsert e l ↔ x = e ∨ x ∈ l := by
  induction l with
  | nil => simp [bufInsert]
  | cons y ys ih =>
    simp only [bufInsert]
    split <;> simp [List.mem_cons, ih] <;> tauto

lemma bufContains_eq_false {l : List Entry} {s : Nat} :
    ¬ bufContains l s = true ↔ ∀ x ∈ l, x.seq ≠ s := by
  simp [bufContains]

lemma bufContains_false {l : List Entry} {s : Nat} (h : bufContains l s = false) :
    ∀ x ∈ l, x.seq ≠ s := by
  simpa [bufContains] using h

lemma pairwise_bufInsert {e : Entry} {l : List Entry}
    (hp : l.Pairwise (fun a b => a.seq < b.seq))
    (hne : ∀ x ∈ l, x.seq ≠ e.seq) :
    (bufInsert e l).Pairwise (fun a b => a.seq < b.seq) := by
  induction l with
  | nil => simp [bufInsert]
  | cons y ys ih =>
    rcases List.pairwise_cons.mp hp with ⟨hy, hys⟩
    simp only [bufInsert]
    split
    · rename_i hlt
      refine List.pairwise_cons.mpr ⟨?_, hp⟩
      intro z hz
      rcases List.mem_cons.mp hz with rfl | hz
      · exact hlt
      · exact lt_trans hlt (hy z hz)
    · rename_i hnlt
      have hye : y.seq < e.seq :=
        lt_of_le_of_ne (le_of_not_lt hnlt) (hne y (List.mem_cons_self y ys))
      refine List.pairwise_cons.mpr ⟨?_, ih hys (fun x hx => hne x (List.mem_cons_of_mem _ hx))⟩
      intro z hz
      rcases mem_bufInsert.mp hz with rfl | hz
      · exact hye
      · exact hy z hz

/-- Soundness of the contiguous drain: starting from an honestly filled,
sorted buffer whose entries all lie at or above `next_expected`, draining
either ends the session having written exactly the whole file, or leaves a
state satisfying all components of the receiver invariant. -/
lemma drain_spec (file : List Nat) (buf : List Entry) :
    ∀ (ne : Nat) (sink : List Nat),
    buf.Pairwise (fun a b => a.seq < b.seq) →
    (∀ e ∈ buf, HonestData file e.seq e.data e.flags) →
    (∀ e ∈ buf, ne ≤ e.seq) →
    (ne % PAYLOAD_SIZE = 0 ∨ ne = file.length) →
    ne ≤ file.length →
    sink = file.take ne →
    ((drain buf ne sink).eof = true → (drain buf ne sink).sink = file) ∧
    ((drain buf ne sink).eof = false →
      (drain buf ne sink).buffer.Pairwise (fun a b => a.seq < b.seq) ∧
      (∀ e ∈ (drain buf ne sink).buffer, HonestData file e.seq e.data e.flags) ∧
      (∀ e ∈ (drain buf ne sink).buffer, (drain buf ne sink).ne < e.seq) ∧
      ((drain buf ne sink).ne % PAYLOAD_SIZE = 0 ∨ (drain buf ne sink).ne = file.length) ∧
      (drain buf ne sink).ne ≤ file.length ∧
      (drain buf ne sink).sink = file.take (drain buf ne sink).ne) := by
  induction buf with
  | nil =>
    intro ne sink _ _ _ hal hb hs
    simp only [drain]
    exact ⟨fun h => by simp at h, fun _ => ⟨List.Pairwise.nil, by simp, by simp, hal, hb, hs⟩⟩
  | cons e rest ih =>
    intro ne sink hp hh ha hal hb hs
    rcases List.pairwise_cons.mp hp with ⟨he, hrest⟩
    by_cases hseq : e.seq = ne
    · by_cases heof : e.flags &&& EOF_FLAG ≠ 0
      · -- popped a buffered EOF entry: the session is complete
        have hEnd : ne = file.length := by
          rcases hh e (List.mem_cons_self e rest) with ⟨hf, _⟩ | ⟨_, hn⟩
          · exact absurd (by simp [hf, EOF_FLAG]) heof
          · omega
        simp only [drain, if_pos hseq, if_pos heof]
        refine ⟨fun _ => ?_, fun h => by simp at h⟩
        simp [hs, hEnd]
      · -- popped an in-order data entry: write it and keep draining
        rcases hh e (List.mem_cons_self e rest) with ⟨_, hmod, hlt, hdata⟩ | ⟨hf, _⟩
        swap
        · exact absurd (by simp [hf, EOF_FLAG]) heof
        have hlen : e.data.length = chunkLen file.length e.seq := honestData_data_length hdata
        have hadv := advance_props (hseq ▸ hmod) (hseq ▸ hlt)
        simp only [drain, if_pos hseq, if_neg heof]
        have hne' : ne + e.data.length = ne + chunkLen file.length ne := by
          rw [hlen, hseq]
        refine ih (ne + e.data.length) (sink ++ e.data) hrest
          (fun x hx => hh x (List.mem_cons_of_mem _ hx)) ?_ ?_ ?_ ?_
        · intro x hx
          rcases hh x (List.mem_cons_of_mem _ hx) with ⟨_, hxm, _, _⟩ | ⟨_, hxn⟩
          · rw [hne']
            exact seq_gap (hseq ▸ hmod) (hseq ▸ hlt) (Or.inl hxm) (hseq ▸ he x hx)
          · rw [hne']
            exact seq_gap (hseq ▸ hmod) (hseq ▸ hlt) (Or.inr hxn) (hseq ▸ (hxn ▸ he x hx))
        · rw [hne']; exact hadv.1
        · rw [hne']; exact hadv.2
        · rw [hs, hne', hdata, hseq]
          exact take_append_slice (by omega)
    · -- buffer head is not the next expected byte: drain stops
      simp only [drain, if_neg hseq]
      refine ⟨fun h => by simp at h, fun _ => ⟨hp, hh, ?_, hal, hb, hs⟩⟩
      intro x hx
      rcases List.mem_cons.mp hx with rfl | hx
      · exact lt_of_le_of_ne (ha x (List.mem_cons_self x rest)) (Ne.symm hseq)
      · exact lt_of_le_of_lt (ha e (List.mem_cons_self e rest)) (he x hx)

/-- Inserting an incoming honest out-of-order segment (under the guard
the code uses: strictly above `next_expected` and not already buffered)
preserves the receiver invariant; so does not inserting it. -/
lemma insert_inv (file : List Nat) (s : CState) (p : Packet)
    (hI : Inv file s) (hp : HonestData file p.seq p.data p.flags)
    (cond : Prop) [Decidable cond]
    (hcond : cond → p.seq > s.nextExpected ∧ ¬ bufContains s.buffer p.seq = true) :
    Inv file ⟨s.nextExpected,
      if cond then bufInsert ⟨p.seq, p.data, p.flags⟩ s.buffer else s.buffer,
      s.sink⟩ := by
  by_cases hc : cond
  · rw [if_pos hc]
    rcases hcond hc with ⟨hgt, hnotin⟩
    have hne := bufContains_eq_false.mp hnotin
    refine ⟨?_, ?_, ?_, hI.aligned, hI.bound, hI.sinkEq⟩
    · exact pairwise_bufInsert hI.sorted hne
    · intro x hx
      rcases mem_bufInsert.mp hx with rfl | hx
      · exact hp
      · exact hI.honest x hx
    · intro x hx
      rcases mem_bufInsert.mp hx with rfl | hx
      · exact hgt
      · exact hI.above x hx
  · rw [if_neg hc]
    exact ⟨hI.sorted, hI.honest, hI.above, hI.aligned, hI.bound, hI.sinkEq⟩

/-- One `process_packet` call on an honest segment preserves the receiver
invariant when it returns `"CONTINUE"`, and has written exactly the whole
file to the sink when it returns `"DONE"`. -/
theorem processPacket_preserves (file : List Nat) (s : CState) (p : Packet)
    (hI : Inv file s) (hp : HonestData file p.seq p.data p.flags) :
    ((processPacket s p).status = .CONT → Inv file (processPacket s p).state) ∧
    ((processPacket s p).status = .DONE → (processPacket s p).state.sink = file) := by
  by_cases hEOF : p.flags &&& EOF_FLAG ≠ 0
  · by_cases hseq : p.seq = s.nextExpected
    · -- in-order EOF: session completes with the file fully written
      have hn : p.seq = file.length := by
        rcases hp with ⟨hf, _⟩ | ⟨_, hn⟩
        · exact absurd (by simp [hf, EOF_FLAG]) hEOF
        · exact hn
      simp only [processPacket, if_pos hEOF, if_pos hseq]
      refine ⟨fun h => by simp at h, fun _ => ?_⟩
      rw [hI.sinkEq, ← hseq, hn]
      simp
    · -- out-of-order EOF: buffered (when new), state otherwise unchanged
      simp only [processPacket, if_pos hEOF, if_neg hseq]
      exact ⟨fun _ => insert_inv file s p hI hp _ (fun h => h), fun h => by simp at h⟩
  · by_cases hseq : p.seq = s.nextExpected
    · -- in-order data: write, drain the contiguous prefix
      rcases hp with ⟨_, hmod, hlt, hdata⟩ | ⟨hf, _⟩
      swap
      · exact absurd (by simp [hf, EOF_FLAG]) hEOF
      have hlen : p.data.length = chunkLen file.length p.seq := honestData_data_length hdata
      have hadv := advance_props
        (hseq ▸ hmod) (hseq ▸ hlt)
      have hlen' : s.nextExpected + p.data.length
          = s.nextExpected + chunkLen file.length s.nextExpected := by
        rw [hlen, hseq]
      have hup : ∀ x ∈ s.buffer, s.nextExpected + p.data.length ≤ x.seq := by
        intro x hx
        rw [hlen']
        rcases hI.honest x hx with ⟨_, hxm, _, _⟩ | ⟨_, hxn⟩
        · exact seq_gap (hseq ▸ hmod) (hseq ▸ hlt) (Or.inl hxm) (hI.above x hx)
        · exact seq_gap (hseq ▸ hmod) (hseq ▸ hlt) (Or.inr hxn) (hI.above x hx)
      have hds := drain_spec file s.buffer (s.nextExpected + p.data.length)
        (s.sink ++ p.data) hI.sorted hI.honest hup
        (by rw [hlen']; exact hadv.1)
        (by rw [hlen']; exact hadv.2)
        (by rw [hI.sinkEq, hlen', ← hseq, hdata, hseq]
            exact take_append_slice (by omega))
      simp only [processPacket, if_neg hEOF, if_pos hseq]
      by_cases heof :
          (drain s.buffer (s.nextExpected + p.data.length) (s.sink ++ p.data)).eof = true
      · simp only [if_pos heof]
        exact ⟨fun h => by simp at h, fun _ => hds.1 heof⟩
      · simp only [if_neg heof]
        refine ⟨fun _ => ?_, fun h => by simp at h⟩
        obtain ⟨h1, h2, h3, h4, h5, h6⟩ := hds.2 (by simpa using heof)
        exact ⟨h1, h2, h3, h4, h5, h6⟩
    · by_cases hgt : p.seq > s.nextExpected
      · -- out-of-order data: buffered (when new and below cap)
        simp only [processPacket, if_neg hEOF, if_neg hseq, if_pos hgt]
        exact ⟨fun _ => insert_inv file s p hI hp _ (fun h => ⟨hgt, h.1⟩),
               fun h => by simp at h⟩
      · -- stale duplicate: state unchanged
        simp only [processPacket, if_neg hEOF, if_neg hseq, if_neg hgt]
        exact ⟨fun _ => hI, fun h => by simp at h⟩

/-- Running the receive loop from an invariant state over honest
segments: if the loop reports completion, the sink holds exactly the
file. -/
theorem runClient_sound (file : List Nat) :
    ∀ (pkts : List Packet) (s : CState), Inv file s →
    (∀ p ∈ pkts, HonestData file p.seq p.data p.flags) →
    (runClient s pkts).2 = true → (runClient s pkts).1.sink = file := by
  intro pkts
  induction pkts with
  | nil => intro s _ _ h; simp [runClient] at h
  | cons p rest ih =>
    intro s hI hh
    have hstep := processPacket_preserves file s p hI (hh p (List.mem_cons_self p rest))
    simp only [runClient]
    cases hst : (processPacket s p).status with
    | DONE => intro _; exact hstep.2 hst
    | CONT =>
      exact ih (processPacket s p).state (hstep.1 hst)
        (fun q hq => hh q (List.mem_cons_of_mem _ hq))

/-- The initial receiver state satisfies the invariant. -/
lemma initState_inv (file : List Nat) : Inv file initState :=
  ⟨List.Pairwise.nil, by simp [initState], by simp [initState],
   Or.inl (by simp [initState]), by simp [initState], by simp [initState]⟩

end Part2Client

namespace Part2Client

/-- Draining never disturbs the sorting of the remaining buffer, for
arbitrary (not necessarily honest) contents. -/
lemma drain_pairwise (buf : List Entry) :
    ∀ (ne : Nat) (sink : List Nat),
    buf.Pairwise (fun a b => a.seq < b.seq) →
    (drain buf ne sink).buffer.Pairwise (fun a b => a.seq < b.seq) := by
  induction buf with
  | nil => intro ne sink _; simp [drain]
  | cons e rest ih =>
    intro ne sink hp
    rcases List.pairwise_cons.mp hp with ⟨_, hrest⟩
    by_cases hseq : e.seq = ne
    · by_cases heof : e.flags &&& EOF_FLAG ≠ 0
      · simpa [drain, if_pos hseq, if_pos heof] using hrest
      · simpa [drain, if_pos hseq, if_neg heof] using
          ih (ne + e.data.length) (sink ++ e.data) hrest
    · simpa [drain, if_neg hseq] using hp

/-- Every `process_packet` call, on an arbitrary incoming datagram,
keeps the reassembly buffer strictly sorted by sequence number — in
particular no two entries ever share a `seq`. -/
lemma processPacket_pairwise (s : CState) (p : Packet)
    (hs : s.buffer.Pairwise (fun a b => a.seq < b.seq)) :
    (processPacket s p).state.buffer.Pairwise (fun a b => a.seq < b.seq) := by
  by_cases hEOF : p.flags &&& EOF_FLAG ≠ 0
  · by_cases hseq : p.seq = s.nextExpected
    · simpa [processPacket, if_pos hEOF, if_pos hseq] using hs
    · simp only [processPacket, if_pos hEOF, if_neg hseq]
      split
      · rename_i hc
        refine pairwise_bufInsert hs ?_
        intro x hx
        have h2 := hc.2
        simp [bufContains] at h2
        exact h2 x hx
      · exact hs
  · by_cases hseq : p.seq = s.nextExpected
    · simp only [processPacket, if_neg hEOF, if_pos hseq]
      by_cases heof :
          (drain s.buffer (s.nextExpected + p.data.length) (s.sink ++ p.data)).eof = true
      · simpa [if_pos heof] using
          drain_pairwise s.buffer (s.nextExpected + p.data.length) (s.sink ++ p.data) hs
      · simpa [if_neg heof] using
          drain_pairwise s.buffer (s.nextExpected + p.data.length) (s.sink ++ p.data) hs
    · by_cases hgt : p.seq > s.nextExpected
      · simp only [processPacket, if_neg hEOF, if_neg hseq, if_pos hgt]
        split
        · rename_i hc
          refine pairwise_bufInsert hs ?_
          intro x hx
          have h1 := hc.1
          simp [bufContains] at h1
          exact h1 x hx
        · exact hs
      · simpa [processPacket, if_neg hEOF, if_neg hseq, if_neg hgt] using hs

end Part2Client

namespace Part2Server

/-- The fold underlying `newestAcked` returns either its accumulator or
a member of the list it folds over. -/
lemma pickNewest_mem (l : List SentRec) :
    ∀ (acc : Option SentRec) (m : SentRec),
    l.foldl (fun acc r =>
      match acc with
      | none => some r
      | some mm => if mm.seq < r.seq then some r else some mm) acc = some m →
    some m = acc ∨ m ∈ l := by
  induction l with
  | nil => intro acc m h; exact Or.inl h.symm
  | cons x xs ih =>
    intro acc m h
    simp only [List.foldl_cons] at h
    rcases ih _ m h with hacc | hm
    · cases acc with
      | none =>
        dsimp only at hacc
        right
        have hmx : m = x := by simpa using hacc
        rw [hmx]
        exact List.mem_cons_self x xs
      | some mm =>
        dsimp only at hacc
        by_cases hlt : mm.seq < x.seq
        · rw [if_pos hlt] at hacc
          right
          have hmx : m = x := by simpa using hacc
          rw [hmx]
          exact List.mem_cons_self x xs
        · rw [if_neg hlt] at hacc
          left
          have hmx : m = mm := by simpa using hacc
          rw [hmx]
    · right
      exact List.mem_cons_of_mem _ hm

/-- The record `newestAcked` finds is a buffered record below the
cumulative ACK. -/
lemma newestAcked_mem {sent : List SentRec} {cumAck : Nat} {m : SentRec}
    (h : newestAcked sent cumAck = some m) : m ∈ sent ∧ m.seq < cumAck := by
  unfold newestAcked at h
  rcases pickNewest_mem _ none m h with hacc | hm
  · simp at hacc
  · have := List.mem_filter.mp hm
    exact ⟨this.1, by simpa using this.2⟩

end Part2Server

/-- C1: for every session the receiver completes successfully on a
stream of honest sender segments (arbitrary loss, reordering and
duplication of the segments `get_next_content` produces), the byte
sequence written to the output sink equals, byte for byte and in order,
the sender payload: the sink is exactly `file`, so for each offset
`o < file.length` the byte at position `o` of the sink is the byte at
offset `o` of the source, written exactly once (the sink is an
append-only log holding each offset at exactly one position). -/
theorem c1_receiver_sink_equals_source (file : List Nat)
    (pkts : List Part2Client.Packet)
    (hhonest : ∀ p ∈ pkts, Part2Client.HonestData file p.seq p.data p.flags)
    (hdone : (Part2Client.runClient Part2Client.initState pkts).2 = true) :
    (Part2Client.runClient Part2Client.initState pkts).1.sink = file ∧
    ∀ o, o < file.length →
      (Part2Client.runClient Part2Client.initState pkts).1.sink.getD o 0
        = file.getD o 0 := by
  have h := Part2Client.runClient_sound file pkts Part2Client.initState
    (Part2Client.initState_inv file) hhonest hdone
  exact ⟨h, fun o _ => by rw [h]⟩

/-- Witness for C1: a 3-byte file delivered over a reordered channel
(the EOF segment arrives before the data segment and is drained from the
buffer). -/
theorem c1_receiver_sink_equals_source_witness :
    (∀ p ∈ ([⟨3, 0, 4, 0, 0, [69, 79, 70]⟩, ⟨0, 0, 0, 0, 0, [5, 6, 7]⟩] :
        List Part2Client.Packet),
      Part2Client.HonestData [5, 6, 7] p.seq p.data p.flags) ∧
    (Part2Client.runClient Part2Client.initState
      [⟨3, 0, 4, 0, 0, [69, 79, 70]⟩, ⟨0, 0, 0, 0, 0, [5, 6, 7]⟩]).2 = true ∧
    (Part2Client.runClient Part2Client.initState
      [⟨3, 0, 4, 0, 0, [69, 79, 70]⟩, ⟨0, 0, 0, 0, 0, [5, 6, 7]⟩]).1.sink = [5, 6, 7] :=
  ⟨by decide, by decide,
    (c1_receiver_sink_equals_source [5, 6, 7]
      [⟨3, 0, 4, 0, 0, [69, 79, 70]⟩, ⟨0, 0, 0, 0, 0, [5, 6, 7]⟩]
      (by decide) (by decide)).1⟩

/-- C2 (code bug): on delivering the EOF in order, the receiver of
`src/part2/p2_client.py` emits a final ACK whose ack field equals the
EOF sequence number itself — the final byte offset — rather than
`final_byte_offset + 1`: with `next_expected = 500` and an in-order EOF
of sequence 500, the emitted ACK is `⟨500, ACK|EOF, 0, 0⟩`.  The comment
directly above the call reads "Send final ACK (seq_num + 1)", the
buffered-EOF path of the same file acks `next_expected + 1`, and the
sibling implementation `src/p2_client.py` acks `seq_num + 1`; a final
ACK equal to the final offset can never satisfy the sender termination
test `cum_ack > eof_sent_seq`. -/
theorem c2_inorder_eof_final_ack_off_by_one :
    (Part2Client.processPacket ⟨500, [], []⟩ ⟨500, 0, 4, 0, 0, [69, 79, 70]⟩).acks
      = [⟨500, 6, 0, 0⟩] ∧
    (Part2Client.processPacket ⟨500, [], []⟩ ⟨500, 0, 4, 0, 0, [69, 79, 70]⟩).status
      = .DONE ∧
    (500 : Nat) ≠ 500 + 1 := by decide

/-- Counterexample to C3: at a sender state with `cwnd = 10000` bytes, a
retransmission timeout does not perform the claimed soft collapse — the
code sets `cwnd` to one MSS (1200), not to
`ssthresh = max(cwnd·β, 2·MSS) = 7000`, and moves the phase to Slow
Start, not Congestion Avoidance. -/
theorem c3_timeout_collapse_counterexample :
    ¬ ((Part2Server.on_timeout Part2Server.cbrt0 5
          { Part2Server.initSrv with cwnd := 10000 }).ssthresh
        = max ((10000 : ℚ) * Part2Server.BETA_CUBIC) (2 * Part2Server.MSS_BYTES) ∧
       (Part2Server.on_timeout Part2Server.cbrt0 5
          { Part2Server.initSrv with cwnd := 10000 }).cwnd
        = (Part2Server.on_timeout Part2Server.cbrt0 5
            { Part2Server.initSrv with cwnd := 10000 }).ssthresh ∧
       (Part2Server.on_timeout Part2Server.cbrt0 5
          { Part2Server.initSrv with cwnd := 10000 }).state
        = Part2Server.CCState.congestionAvoidance) := by
  intro h
  exact absurd h.2.2 (by decide)

/-- C3 as amended to what the code does: on every retransmission-timeout
event the part-2 sender sets `ssthresh := cwnd · β` (β = 0.7, with no
`2·MSS` floor), collapses `cwnd` to exactly one MSS, transitions the
phase to Slow Start, doubles the RTO capping it at 60 s, and resets the
duplicate-ACK counter. -/
theorem c3_timeout_collapse_amended (cbrt : ℚ → ℚ) (now : ℚ) (s : Part2Server.Srv) :
    (Part2Server.on_timeout cbrt now s).state = Part2Server.CCState.slowStart ∧
    (Part2Server.on_timeout cbrt now s).cwnd = Part2Server.MSS_BYTES ∧
    (Part2Server.on_timeout cbrt now s).ssthresh = s.cwnd * Part2Server.BETA_CUBIC ∧
    (Part2Server.on_timeout cbrt now s).rto = min (s.rto * 2) 60 ∧
    (Part2Server.on_timeout cbrt now s).dupAckCount = 0 := by
  refine ⟨rfl, rfl, rfl, rfl, rfl⟩

/-- Counterexample to C4: a new ACK in the CUBIC branch can shrink the
window.  At `cwnd = 100000`, `ssthresh = w_max = 1000`, `K = 1`,
`rtt_min = 1`, one time unit after the congestion epoch, the window
target is 1000.4 < cwnd, the unclamped increment is negative, and the
updated `cwnd` is 98831.8 — strictly below the old window, contradicting
`Δ = max(0, …)` and monotonicity. -/
theorem c4_cubic_ack_can_decrease_counterexample :
    Part2Server.cubic_ack_update 1
      { Part2Server.initSrv with
          state := Part2Server.CCState.congestionAvoidance
          cwnd := 100000
          ssthresh := 1000
          wMax := 1000
          kCubic := 1
          tLastCong := 1
          rttMin := some 1 }
      = 494159 / 5 ∧
    (494159 / 5 : ℚ) < 100000 := by
  constructor
  · norm_num [Part2Server.cubic_ack_update, Part2Server.cubic_target,
      Part2Server.rtt_min_sec, Part2Server.initSrv, Part2Server.BETA_CUBIC,
      Part2Server.C_CUBIC, Part2Server.PAYLOAD_SIZE]
  · norm_num

/-- C4 as amended to what the code does: each new ACK in the CUBIC
branch moves `cwnd` toward `w_target = max(W_cubic(t_elapsed + rtt_min),
W_tcp(t_elapsed))` by `(w_target − cwnd) / max(1, cwnd/MSS)`, never
overshooting past the target in either direction; there is no `max(0,·)`
clamp (so the window can decrease) and no `MAX_CWND` cap. -/
theorem c4_cubic_ack_moves_toward_target (now : ℚ) (s : Part2Server.Srv) :
    min s.cwnd (Part2Server.cubic_target now s)
      ≤ Part2Server.cubic_ack_update now s ∧
    Part2Server.cubic_ack_update now s
      ≤ max s.cwnd (Part2Server.cubic_target now s) := by
  have hupd : Part2Server.cubic_ack_update now s
      = s.cwnd + (Part2Server.cubic_target now s - s.cwnd)
          / max 1 (s.cwnd / Part2Server.PAYLOAD_SIZE) := rfl
  set t := Part2Server.cubic_target now s
  set q := max 1 (s.cwnd / Part2Server.PAYLOAD_SIZE)
  have hq1 : (1 : ℚ) ≤ q := le_max_left _ _
  have hq0 : (0 : ℚ) < q := by linarith
  rw [hupd]
  rcases le_total s.cwnd t with h | h
  · constructor
    · have hnn : 0 ≤ (t - s.cwnd) / q := div_nonneg (by linarith) (le_of_lt hq0)
      calc min s.cwnd t ≤ s.cwnd := min_le_left _ _
        _ ≤ s.cwnd + (t - s.cwnd) / q := by linarith
    · have hle : (t - s.cwnd) / q ≤ t - s.cwnd := div_le_self (by linarith) hq1
      calc s.cwnd + (t - s.cwnd) / q ≤ t := by linarith
        _ ≤ max s.cwnd t := le_max_right _ _
  · constructor
    · have h1 : t - s.cwnd ≤ (t - s.cwnd) / q := by
        rw [le_div_iff hq0]
        nlinarith
      calc min s.cwnd t ≤ t := min_le_right _ _
        _ ≤ s.cwnd + (t - s.cwnd) / q := by linarith
    · have hnp : (t - s.cwnd) / q ≤ 0 := by
        have h2 := (div_le_div_right hq0).mpr (show t - s.cwnd ≤ 0 by linarith)
        simpa using h2
      calc s.cwnd + (t - s.cwnd) / q ≤ s.cwnd := by linarith
        _ ≤ max s.cwnd t := le_max_left _ _

/-- Counterexample to C5: from the initial sender state (`cwnd = MSS =
1200`) after two duplicate ACKs, the third duplicate ACK triggers a
congestion event that leaves `ssthresh = 840 < 2·MSS = 2400` and
`cwnd = 840 < MSS` — violating both the post-event floor on `ssthresh`
and the global lower bound `cwnd ≥ MSS`. -/
theorem c5_congestion_event_bounds_counterexample :
    (Part2Server.on_dup_ack Part2Server.cbrt0 5
        { Part2Server.initSrv with dupAckCount := 2 }).ssthresh = 840 ∧
    (Part2Server.on_dup_ack Part2Server.cbrt0 5
        { Part2Server.initSrv with dupAckCount := 2 }).cwnd = 840 ∧
    ¬ (2 * Part2Server.MSS_BYTES
        ≤ (Part2Server.on_dup_ack Part2Server.cbrt0 5
            { Part2Server.initSrv with dupAckCount := 2 }).ssthresh) ∧
    ¬ (Part2Server.MSS_BYTES
        ≤ (Part2Server.on_dup_ack Part2Server.cbrt0 5
            { Part2Server.initSrv with dupAckCount := 2 }).cwnd) := by
  refine ⟨?_, ?_, ?_, ?_⟩ <;>
    norm_num [Part2Server.on_dup_ack, Part2Server.enter_cubic_congestion_avoidance,
      Part2Server.initSrv, Part2Server.BETA_CUBIC, Part2Server.MSS_BYTES,
      Part2Server.PAYLOAD_SIZE, Part2Server.INITIAL_RTO, Part2Server.cbrt0,
      (by decide :
        ¬ (Part2Server.CCState.slowStart = Part2Server.CCState.fastRecovery))]

/-- C5 as amended to what the code does: immediately after a
third-duplicate-ACK congestion event the part-2 sender has
`cwnd = ssthresh = β·cwnd_prev` (hence `cwnd ≥ ssthresh·β` whenever the
previous window was nonnegative, but no `2·MSS` floor on `ssthresh` and
no `cwnd ≥ MSS` bound), and immediately after a timeout `cwnd` is exactly
one MSS; no `MAX_CWND` bound exists anywhere. -/
theorem c5_congestion_event_bounds_amended (cbrt : ℚ → ℚ) (now : ℚ)
    (s : Part2Server.Srv) (h0 : 0 ≤ s.cwnd)
    (hfr : s.state ≠ Part2Server.CCState.fastRecovery)
    (hd : s.dupAckCount = 2) :
    (Part2Server.on_dup_ack cbrt now s).cwnd
      = (Part2Server.on_dup_ack cbrt now s).ssthresh ∧
    (Part2Server.on_dup_ack cbrt now s).ssthresh
      = s.cwnd * Part2Server.BETA_CUBIC ∧
    (Part2Server.on_dup_ack cbrt now s).ssthresh * Part2Server.BETA_CUBIC
      ≤ (Part2Server.on_dup_ack cbrt now s).cwnd ∧
    (Part2Server.on_timeout cbrt now s).cwnd = Part2Server.MSS_BYTES := by
  have hstep : Part2Server.on_dup_ack cbrt now s
      = { Part2Server.enter_cubic_congestion_avoidance cbrt now
            { s with dupAckCount := s.dupAckCount + 1 } with
          cwnd := (Part2Server.enter_cubic_congestion_avoidance cbrt now
            { s with dupAckCount := s.dupAckCount + 1 }).ssthresh
          state := Part2Server.CCState.fastRecovery } := by
    rw [Part2Server.on_dup_ack, if_neg hfr]
    simp [hd]
  rw [hstep]
  refine ⟨rfl, rfl, ?_, rfl⟩
  show s.cwnd * Part2Server.BETA_CUBIC * Part2Server.BETA_CUBIC
      ≤ s.cwnd * Part2Server.BETA_CUBIC
  simp only [Part2Server.BETA_CUBIC]
  nlinarith

/-- Witness for C5 (amended): the concrete congestion event of the
counterexample state satisfies the amended relations. -/
theorem c5_congestion_event_bounds_amended_witness :
    (0 : ℚ) ≤ ({ Part2Server.initSrv with dupAckCount := 2 } : Part2Server.Srv).cwnd ∧
    ({ Part2Server.initSrv with dupAckCount := 2 } : Part2Server.Srv).state
      ≠ Part2Server.CCState.fastRecovery ∧
    ({ Part2Server.initSrv with dupAckCount := 2 } : Part2Server.Srv).dupAckCount = 2 ∧
    (Part2Server.on_dup_ack Part2Server.cbrt0 0
        { Part2Server.initSrv with dupAckCount := 2 }).cwnd
      = (Part2Server.on_dup_ack Part2Server.cbrt0 0
          { Part2Server.initSrv with dupAckCount := 2 }).ssthresh :=
  ⟨by norm_num [Part2Server.initSrv, Part2Server.MSS_BYTES], by decide, by decide,
    (c5_congestion_event_bounds_amended Part2Server.cbrt0 0
      { Part2Server.initSrv with dupAckCount := 2 }
      (by norm_num [Part2Server.initSrv, Part2Server.MSS_BYTES])
      (by decide) (by decide)).1⟩

/-- Counterexample to C6: the Reno sender variant `src/p2_server.py`
draws its RTT sample from the base segment whenever the base is still
buffered, regardless of the retransmit count: with the base record
having retransmit count 2, a covering ACK still produces the sample
`now − send_time = 5`. -/
theorem c6_reno_samples_retransmitted_counterexample :
    RenoServer.ack_rtt_sample [⟨0, 0, 2⟩] 0 5 = some 5 ∧
    (⟨0, (0 : ℚ), 2⟩ : Part2Server.SentRec).retrans ≠ 0 := by
  constructor
  · norm_num [RenoServer.ack_rtt_sample, List.find?]
  · decide

/-- C6 as amended: in the part-2 CUBIC sender, every RTT sample fed to
the RTO estimator is drawn from the newest cumulatively acknowledged
segment, and only when that segment had retransmit count 0 at the time
its acknowledgment was processed (Karn's rule); the Reno variant
`src/p2_server.py` has no such guard. -/
theorem c6_part2_karns_rule (sent : List Part2Server.SentRec) (cumAck : Nat)
    (now r : ℚ)
    (h : Part2Server.ack_rtt_sample sent cumAck now = some r) :
    ∃ m, Part2Server.newestAcked sent cumAck = some m ∧ m ∈ sent ∧
      m.seq < cumAck ∧ m.retrans = 0 ∧ r = now - m.sendTime := by
  unfold Part2Server.ack_rtt_sample at h
  cases hm : Part2Server.newestAcked sent cumAck with
  | none => rw [hm] at h; exact absurd h (by simp)
  | some m =>
    rw [hm] at h
    dsimp only at h
    by_cases hr : m.retrans = 0
    · rw [if_pos hr] at h
      have hrr : now - m.sendTime = r := by simpa using h
      obtain ⟨hmem, hlt⟩ := Part2Server.newestAcked_mem hm
      exact ⟨m, rfl, hmem, hlt, hr, hrr.symm⟩
    · rw [if_neg hr] at h
      exact absurd h (by simp)

/-- Witness for C6: a single fresh (never retransmitted) segment at
sequence 0 acknowledged by `cum_ack = 10` at time 2 yields the sample 2,
and the sampled record has retransmit count 0. -/
theorem c6_part2_karns_rule_witness :
    Part2Server.ack_rtt_sample [⟨0, 0, 0⟩] 10 2 = some 2 ∧
    ∃ m, Part2Server.newestAcked [⟨0, 0, 0⟩] 10 = some m ∧
      m ∈ ([⟨0, 0, 0⟩] : List Part2Server.SentRec) ∧
      m.seq < 10 ∧ m.retrans = 0 ∧ (2 : ℚ) = 2 - m.sendTime := by
  have hsample : Part2Server.ack_rtt_sample [⟨0, 0, 0⟩] 10 2 = some 2 := by
    norm_num [Part2Server.ack_rtt_sample, Part2Server.newestAcked, List.filter]
  exact ⟨hsample, c6_part2_karns_rule [⟨0, 0, 0⟩] 10 2 2 hsample⟩

/-- Counterexample to C7: the part-2 sender initializes the RTO to 1 s
(not 300 ms), and after an RTT sample of 10/3 s the RTO is
`srtt + 4·rttvar = 10 s`, above the claimed 3 s cap — the code clamps
only from below (at 200 ms, not 50 ms). -/
theorem c7_rto_constants_counterexample :
    Part2Server.initSrv.rto = 1 ∧ (1 : ℚ) ≠ 3/10 ∧
    (Part2Server.update_rto (10/3) Part2Server.initSrv).rto = 10 ∧
    ¬ ((10 : ℚ) ≤ 3) := by
  refine ⟨rfl, by norm_num, ?_, by norm_num⟩
  norm_num [Part2Server.update_rto, Part2Server.initSrv, Part2Server.ALPHA,
    Part2Server.BETA, Part2Server.K_RTO, Part2Server.MIN_RTO,
    Part2Server.INITIAL_RTO, Part2Server.MSS_BYTES]

/-- C7 as amended to what the code does: after every RTT sample the RTO
equals `max(srtt + 4·rttvar, MIN_RTO)` with `MIN_RTO = 200 ms` and no
upper clamp; the initial RTO is 1 s; and each timeout-triggered
retransmission doubles the RTO, capping it at 60 s. -/
theorem c7_rto_formula_amended (r : ℚ) (s : Part2Server.Srv) :
    (Part2Server.update_rto r s).rto
      = max Part2Server.MIN_RTO
          ((Part2Server.update_rto r s).srtt
            + 4 * (Part2Server.update_rto r s).rttvar) ∧
    Part2Server.MIN_RTO ≤ (Part2Server.update_rto r s).rto ∧
    Part2Server.initSrv.rto = 1 ∧
    (∀ (cbrt : ℚ → ℚ) (now : ℚ) (s2 : Part2Server.Srv),
      (Part2Server.on_timeout cbrt now s2).rto = min (s2.rto * 2) 60) := by
  refine ⟨rfl, ?_, rfl, fun cbrt now s2 => rfl⟩
  exact le_max_left _ _

/-- Counterexample to C8: a 21-byte datagram carrying the inconsistent
SACK block `[5, 3)` (`sack_start > 0`, `sack_end ≤ sack_start`) does not
fail decoding — `unpack_header` returns its fields — and processing it
changes the receiver state (its payload byte is accepted in order). -/
theorem c8_bad_sack_block_decodes_counterexample :
    Part2Client.unpackHeader
      [0, 0, 0, 0, 0, 0, 0, 0, 0, 0, 0, 0, 0, 5, 0, 0, 0, 3, 0, 0, 7]
      = some ⟨0, 0, 0, 5, 3, [7]⟩ ∧
    (Part2Client.processRaw Part2Client.initState
      [0, 0, 0, 0, 0, 0, 0, 0, 0, 0, 0, 0, 0, 5, 0, 0, 0, 3, 0, 0, 7]).state.nextExpected
      = 1 ∧
    Part2Client.initState.nextExpected = 0 := by
  decide

/-- C8 as amended: the two cited receivers diverge on a short datagram.
In the part-2 receiver a datagram shorter than the 20-byte header fails
decoding and is dropped with the receiver state (and loop status)
unchanged and no ACK emitted, and a datagram of at least 20 bytes
always decodes, so an inconsistent SACK block is not a decode failure —
it is merely ignored by SACK processing while the rest of the packet
takes normal effect.  In the cited Reno receiver `src/p2_client.py` a
short datagram is not cleanly dropped at all: `unpack_header` returns
the 4-tuple of `None`s, the `is None` guard never fires, the 3-name
unpacking raises `ValueError`, and the generic exception handler of the
receive loop sets `running = False`, terminating the loop (on a
well-formed datagram the loop survives to the status check). -/
theorem c8_malformed_handling_amended (s : Part2Client.CState) (pkt : List Nat) :
    (pkt.length < 20 →
      Part2Client.unpackHeader pkt = none ∧
      Part2Client.processRaw s pkt
        = ⟨s, [], Part2Client.Status.CONT⟩ ∧
      RenoClient.unpack_header pkt = RenoClient.HeaderResult.noneQuad ∧
      RenoClient.process_packet_entry pkt = RenoClient.DecodeOutcome.valueError ∧
      RenoClient.loop_survives pkt = false) ∧
    (20 ≤ pkt.length →
      (∃ p, Part2Client.unpackHeader pkt = some p) ∧
      RenoClient.loop_survives pkt = true) := by
  constructor
  · intro hshort
    have h : Part2Client.unpackHeader pkt = none := by
      rw [Part2Client.unpackHeader, if_pos hshort]
    have hq : RenoClient.unpack_header pkt = RenoClient.HeaderResult.noneQuad := by
      rw [RenoClient.unpack_header, if_pos hshort]
    have hve : RenoClient.process_packet_entry pkt
        = RenoClient.DecodeOutcome.valueError := by
      rw [RenoClient.process_packet_entry, hq]
    refine ⟨h, ?_, hq, hve, ?_⟩
    · rw [Part2Client.processRaw, h]
    · rw [RenoClient.loop_survives, hve]
  · intro hlong
    have hq : RenoClient.unpack_header pkt
        = RenoClient.HeaderResult.fields (Part2Client.beNat (pkt.take 4))
            (Part2Client.beNat ((pkt.drop 4).take 4))
            (Part2Client.beNat ((pkt.drop 8).take 2)) := by
      rw [RenoClient.unpack_header, if_neg (by omega)]
    constructor
    · refine ⟨⟨Part2Client.beNat (pkt.take 4), Part2Client.beNat ((pkt.drop 4).take 4),
        Part2Client.beNat ((pkt.drop 8).take 2), Part2Client.beNat ((pkt.drop 10).take 4),
        Part2Client.beNat ((pkt.drop 14).take 4), pkt.drop 20⟩, ?_⟩
      rw [Part2Client.unpackHeader, if_neg (by omega)]
    · rw [RenoClient.loop_survives, RenoClient.process_packet_entry, hq]

/-- Witness for C8 (amended): a 2-byte datagram is rejected and dropped
by the part-2 receiver and kills the Reno receive loop; a 20-byte
datagram decodes in the part-2 receiver and the Reno loop survives it. -/
theorem c8_malformed_handling_amended_witness :
    ([1, 2] : List Nat).length < 20 ∧
    Part2Client.unpackHeader [1, 2] = none ∧
    RenoClient.loop_survives [1, 2] = false ∧
    20 ≤ (List.replicate 20 0 : List Nat).length ∧
    (∃ p, Part2Client.unpackHeader (List.replicate 20 0) = some p) ∧
    RenoClient.loop_survives (List.replicate 20 0) = true :=
  ⟨by decide,
   ((c8_malformed_handling_amended Part2Client.initState [1, 2]).1 (by decide)).1,
   ((c8_malformed_handling_amended Part2Client.initState [1, 2]).1 (by decide)).2.2.2.2,
   by decide,
   ((c8_malformed_handling_amended Part2Client.initState
      (List.replicate 20 0)).2 (by decide)).1,
   ((c8_malformed_handling_amended Part2Client.initState
      (List.replicate 20 0)).2 (by decide)).2⟩

/-- Counterexample to C9: with sequence 2000 buffered (one byte) and an
out-of-order segment 5000 arriving, the receiver ACKs with the SACK
block `[5000, 5002)` of the segment just received — not the earliest
contiguous buffered run, which starts at 2000. -/
theorem c9_sack_not_lowest_run_counterexample :
    (Part2Client.processPacket ⟨0, [⟨2000, [7], 0⟩], []⟩
        ⟨5000, 0, 0, 0, 0, [8, 8]⟩).acks
      = [⟨0, 2, 5000, 5002⟩] ∧
    Part2Client.find_first_sack_block
      (Part2Client.processPacket ⟨0, [⟨2000, [7], 0⟩], []⟩
        ⟨5000, 0, 0, 0, 0, [8, 8]⟩).state.buffer
      = (2000, 2001) ∧
    (5000 : Nat) ≠ 2000 := by
  decide

/-- C9 as amended: every `process_packet` call emits exactly one ACK,
and that ACK carries at most one SACK block, which is either absent
(`(0,0)`), the extent `[seq, seq+len)` of the segment just received (the
out-of-order branch), or the extent of the single lowest-sequence
buffered entry (not of the whole contiguous run). -/
theorem c9_one_ack_at_most_one_sack_block (s : Part2Client.CState)
    (p : Part2Client.Packet) :
    ∃ a, (Part2Client.processPacket s p).acks = [a] ∧
      ((a.sackStart, a.sackEnd) = (0, 0) ∨
       (a.sackStart, a.sackEnd) = (p.seq, p.seq + p.data.length) ∨
       (a.sackStart, a.sackEnd)
         = Part2Client.find_first_sack_block
             (Part2Client.processPacket s p).state.buffer) := by
  by_cases hEOF : p.flags &&& Part2Client.EOF_FLAG ≠ 0
  · by_cases hseq : p.seq = s.nextExpected
    · simp only [Part2Client.processPacket, if_pos hEOF, if_pos hseq]
      exact ⟨_, rfl, Or.inl rfl⟩
    · simp only [Part2Client.processPacket, if_pos hEOF, if_neg hseq]
      exact ⟨_, rfl, Or.inr (Or.inr Prod.mk.eta)⟩
  · by_cases hseq : p.seq = s.nextExpected
    · by_cases heof :
        (Part2Client.drain s.buffer (s.nextExpected + p.data.length)
          (s.sink ++ p.data)).eof = true
      · simp only [Part2Client.processPacket, if_neg hEOF, if_pos hseq, if_pos heof]
        exact ⟨_, rfl, Or.inl rfl⟩
      · simp only [Part2Client.processPacket, if_neg hEOF, if_pos hseq, if_neg heof]
        exact ⟨_, rfl, Or.inr (Or.inr Prod.mk.eta)⟩
    · by_cases hgt : p.seq > s.nextExpected
      · simp only [Part2Client.processPacket, if_neg hEOF, if_neg hseq, if_pos hgt]
        exact ⟨_, rfl, Or.inr (Or.inl rfl)⟩
      · simp only [Part2Client.processPacket, if_neg hEOF, if_neg hseq, if_neg hgt]
        exact ⟨_, rfl, Or.inr (Or.inr Prod.mk.eta)⟩

/-- Counterexample to C10: for arbitrary incoming datagrams the claimed
invariant fails — buffering sequence 15, then accepting in-order
segments `[0,10)` and `[10,20)` that overlap it, advances
`next_expected` to 20 while the entry 15 is still buffered, i.e. below
`next_expected`. -/
theorem c10_overlap_breaks_buffer_invariant_counterexample :
    (Part2Client.runClient Part2Client.initState
      [⟨15, 0, 0, 0, 0, [9]⟩,
       ⟨0, 0, 0, 0, 0, List.replicate 10 7⟩,
       ⟨10, 0, 0, 0, 0, List.replicate 10 7⟩]).1.nextExpected = 20 ∧
    ∃ e ∈ (Part2Client.runClient Part2Client.initState
      [⟨15, 0, 0, 0, 0, [9]⟩,
       ⟨0, 0, 0, 0, 0, List.replicate 10 7⟩,
       ⟨10, 0, 0, 0, 0, List.replicate 10 7⟩]).1.buffer, e.seq < 20 := by
  decide

/-- C10 as amended: on arbitrary datagrams, every `process_packet` step
keeps the buffer strictly sorted by sequence number (so no two entries
ever share a `seq`); when the incoming datagrams are honest sender
segments (whose boundaries never straddle one another), each continuing
step additionally preserves the full invariant, in particular every
buffered entry stays strictly above `next_expected`.  For fully
arbitrary datagrams the latter fails (see the counterexample). -/
theorem c10_buffer_invariant_amended (file : List Nat) (s : Part2Client.CState)
    (p : Part2Client.Packet) :
    (s.buffer.Pairwise (fun a b => a.seq < b.seq) →
      (Part2Client.processPacket s p).state.buffer.Pairwise
        (fun a b => a.seq < b.seq)) ∧
    (Part2Client.Inv file s →
      Part2Client.HonestData file p.seq p.data p.flags →
      (Part2Client.processPacket s p).status = Part2Client.Status.CONT →
      (∀ e ∈ (Part2Client.processPacket s p).state.buffer,
        (Part2Client.processPacket s p).state.nextExpected < e.seq) ∧
      (Part2Client.processPacket s p).state.buffer.Pairwise
        (fun a b => a.seq < b.seq)) := by
  refine ⟨Part2Client.processPacket_pairwise s p, fun hI hp hst => ?_⟩
  have h := (Part2Client.processPacket_preserves file s p hI hp).1 hst
  exact ⟨h.above, h.sorted⟩

/-- Witness for C10 (amended): processing the honest in-order segment of
a 3-byte file from the initial state. -/
theorem c10_buffer_invariant_amended_witness :
    Part2Client.initState.buffer.Pairwise (fun a b => a.seq < b.seq) ∧
    Part2Client.HonestData [5, 6, 7] 0 [5, 6, 7] 0 ∧
    (Part2Client.processPacket Part2Client.initState
        ⟨0, 0, 0, 0, 0, [5, 6, 7]⟩).status = Part2Client.Status.CONT ∧
    ∀ e ∈ (Part2Client.processPacket Part2Client.initState
        ⟨0, 0, 0, 0, 0, [5, 6, 7]⟩).state.buffer,
      (Part2Client.processPacket Part2Client.initState
        ⟨0, 0, 0, 0, 0, [5, 6, 7]⟩).state.nextExpected < e.seq :=
  ⟨by decide, by decide, by decide,
    ((c10_buffer_invariant_amended [5, 6, 7] Part2Client.initState
        ⟨0, 0, 0, 0, 0, [5, 6, 7]⟩).2
      (Part2Client.initState_inv [5, 6, 7]) (by decide) (by decide)).1⟩
